/-
  Verification of the nchandy compression/quantization engine.

  Shallow embedding of the relevant parts of `nchandy/__init__.py` and
  `nchandy/file.py`.  Numeric arrays are modelled as lists of rationals
  (exact arithmetic standing in for IEEE floats); `np.round(x, q)` is
  modelled as `round (x * 10^q) / 10^q`; dtypes are tags carried along
  and restored by `astype`, exactly as in the source.
-/
import Mathlib

namespace Nchandy

/-- Storage dtype tag of a variable (`str(ds.dtype)` in the source; the
    float branch of `compress` tests `str(ds.dtype).startswith('float')`). -/
inductive DType where
  | float32
  | float64
  | int32
deriving DecidableEq, Repr

/-- `str(dtype).startswith('float')` from `__init__.py:248`. -/
def DType.isFloat : DType → Bool
  | .float32 => true
  | .float64 => true
  | .int32 => false

/-- An attribute value (scalar netCDF attribute: int, float or string). -/
inductive AttrVal where
  | int (n : ℤ)
  | rat (x : ℚ)
  | str (s : String)
deriving DecidableEq, Repr

/-- Numeric reading of an attribute value, as Python's `max` would mix
    ints and floats (`__init__.py:290`).  A string attribute would raise
    `TypeError` in Python and never occurs on `precision_MAE`. -/
def AttrVal.toRat? : AttrVal → Option ℚ
  | .int n => some (n : ℚ)
  | .rat x => some x
  | .str _ => none

/-- Attribute mapping (`v.attrs` / `ds.attrs`): an association list. -/
abbrev Attrs := List (String × AttrVal)

/-- Dictionary lookup. -/
def getAttr (a : Attrs) (k : String) : Option AttrVal :=
  (a.find? (fun p => p.1 == k)).map Prod.snd

/-- Dictionary update `a[k] = v`: replaces an existing key in place,
    otherwise appends (Python dicts preserve insertion order). -/
def setAttr (a : Attrs) (k : String) (v : AttrVal) : Attrs :=
  if (a.find? (fun p => p.1 == k)).isSome then
    a.map (fun p => if p.1 == k then (k, v) else p)
  else
    a ++ [(k, v)]

/-- Per-variable encoding descriptor; `compress` updates the keys
    `zlib`, `shuffle`, `complevel` (`__init__.py:273`). -/
structure Encoding where
  zlib : Bool
  shuffle : Bool
  complevel : Option ℤ
deriving DecidableEq, Repr

/-- A fresh xarray `Variable` produced by arithmetic has empty encoding. -/
def Encoding.empty : Encoding := ⟨false, false, none⟩

/-- `old_enc.update({'zlib': True, 'shuffle': True, 'complevel': dlevel})`
    (`__init__.py:273-274`). -/
def Encoding.deflateUpdate (e : Encoding) (dl : ℤ) : Encoding :=
  { e with zlib := true, shuffle := true, complevel := some dl }

/-- One named array of numeric values (`xr.core.variable.Variable`). -/
structure Var where
  dtype : DType
  values : List ℚ
  attrs : Attrs
  encoding : Encoding
deriving DecidableEq, Repr

/-- An xarray `Dataset`: insertion-ordered variables plus global attrs. -/
structure Dataset where
  vars : List (String × Var)
  attrs : Attrs
deriving DecidableEq, Repr

/-! ## Idempotence guard (`_update_is_required_compress`, `__init__.py:42-57`)

The guard reads only metadata of a persisted file: each variable's
`encoding['complevel']` and the dataset attribute `precision`.  We embed
that metadata directly.  `precision : Option (Option ℤ)` distinguishes
the key being absent (`none`) from being present with value `None`
(`some none`). -/

structure PersistedMeta where
  complevels : List ℤ
  precision : Option (Option ℤ)
deriving DecidableEq, Repr

/-- `_update_is_required_compress(f, quantize, dlevel)`.  The
    `for ... break` loop over variables is `List.any`; then `quantize`
    collapses to `None` when a non-`None` stored precision is ≤ it, and
    any surviving `quantize` forces reprocessing. -/
def updateIsRequiredCompress (ds : PersistedMeta) (quantize : Option ℤ)
    (dlevel : ℤ) : Bool :=
  let compressionChanged := ds.complevels.any (fun c => c != dlevel)
  let quantize' : Option ℤ :=
    match ds.precision, quantize with
    | some (some p), some q => if q ≥ p then none else some q
    | _, _ => quantize
  compressionChanged || quantize'.isSome

/-! ## External-tool path (`ncks`, `file.py:176-208`) -/

/-- Decimal digit value of a character, if any. -/
def digit? (c : Char) : Option ℕ :=
  if '0' ≤ c ∧ c ≤ '9' then some (c.toNat - '0'.toNat) else none

/-- Parse a nonempty all-digit character list as a natural number. -/
def parseDigits (cs : List Char) : Option ℕ :=
  if cs = [] then none
  else cs.foldl
    (fun acc c => acc.bind (fun n => (digit? c).map (fun d => 10 * n + d)))
    (some 0)

/-- Python `s.startswith('.')` (`file.py:193`), at the character level. -/
def pyStartsWithDot (s : String) : Bool :=
  match s.data with
  | '.' :: _ => true
  | _ => false

/-- Python `float(s)` restricted to the shapes `ncks` feeds it: a leading
    `'.'` followed by digits (the fractional significant-digit spec). -/
def pyFloatDot? (s : String) : Option ℚ :=
  match s.data with
  | '.' :: rest => (parseDigits rest).map (fun n => (n : ℚ) / 10 ^ rest.length)
  | _ => none

/-- Python `int(s)`: an optional sign followed by digits. -/
def pyInt? (s : String) : Option ℤ :=
  match s.data with
  | '-' :: rest => (parseDigits rest).map (fun n => -(n : ℤ))
  | cs => (parseDigits cs).map (fun n => (n : ℤ))

/-- `file.py:189-190`: `ValueError` when both `quantize` and `dlevel`
    are `None`. -/
def ncksBothNoneCheck (quantize : Option String) (dlevel : Option ℤ) :
    Except String Unit :=
  if quantize = none ∧ dlevel = none then
    throw "ValueError: One of quantize or dlevel must be set."
  else pure ()

/-- `file.py:192-195`: when `quantize` is set,
    `q = float(quantize) if quantize.startswith('.') else int(quantize)`
    and `ValueError('NSD quantize cannot be 0.')` only when
    `isinstance(q, int) and q == 0` — a `float` result is never an `int`
    instance, so the `.N` branch can not trigger it. -/
def ncksCheckQuantize (quantize : Option String) : Except String Unit :=
  match quantize with
  | none => pure ()
  | some s =>
    if pyStartsWithDot s then
      match pyFloatDot? s with
      | some _ => pure ()
      | none => throw "ValueError: could not convert string to float"
    else
      match pyInt? s with
      | some n =>
        if n = 0 then throw "ValueError: NSD quantize cannot be 0."
        else pure ()
      | none => throw "ValueError: invalid literal for int()"

/-- The argument-validation prefix of `ncks` (`file.py:189-195`). -/
def ncksCheckArgs (quantize : Option String) (dlevel : Option ℤ) :
    Except String Unit := do
  ncksBothNoneCheck quantize dlevel
  ncksCheckQuantize quantize

/-- The subprocess argument list built by `ncks` (`file.py:204-207`). -/
def buildCmd (quantize : Option String) (dlevel : Option ℤ)
    (src dst : String) : List String :=
  let dflLvl := match dlevel with
    | some d => ["-L", toString d, "--baa=8"]
    | none => []
  let ppc := match quantize with
    | some q => ["--ppc", "default=" ++ q]
    | none => []
  ["ncks", "-O", "-7", "--no_abc"] ++ dflLvl ++ ppc ++ [src, dst]

/-- `ncks` up to the subprocess call: validate the arguments, then return
    the command handed to `subprocess.run`. -/
def ncksRun (quantize : Option String) (dlevel : Option ℤ)
    (src dst : String) : Except String (List String) := do
  ncksCheckArgs quantize dlevel
  pure (buildCmd quantize dlevel src dst)

/-! ## In-process compress (`compress`, `__init__.py:228-297`)

The Variable branch quantizes float variables and stamps encodings; the
DataArray branch merely rewraps the Variable result (identity on the
content we model); the Dataset branch deep-copies, maps the Variable
operation over every data variable, aggregates `precision_MAE`, and
stamps dataset attributes.  xarray specifics carried into the model:
`astype` keeps attrs, but binary arithmetic (`* e`, `/ e`) returns a
fresh `Variable` with empty attrs and empty encoding, so a quantized
variable keeps only the freshly written `precision_MAE` attribute and
its encoding is rebuilt from the saved copy only when `dlevel` is set. -/

/-- `np.round(x, q)` in exact arithmetic: round half to the nearest
    multiple of `10^(-q)` (`round` here is Lean's round-half-up; numpy
    rounds half to even — the two agree off ties and every claim below
    is insensitive to the tie rule). -/
def npRoundDec (x : ℚ) (q : ℤ) : ℚ :=
  (round (x * (10 : ℚ) ^ q) : ℤ) / (10 : ℚ) ^ q

/-- `__init__.py:268`: `r = (np.round(ds.astype('float64') * e, quantize)
    / e).astype(dt)` with `e = 1`. -/
def reduceValues (vals : List ℚ) (q : ℤ) : List ℚ :=
  vals.map (fun x => npRoundDec (x * 1) q / 1)

/-- `__init__.py:269`: `mae = np.max(abs(ds - r)).astype(dt)` — the
    maximum absolute elementwise difference (`np.max` of an empty array
    raises; on the empty list this folds to 0, a case no claim and no
    witness exercises). -/
def maxAbsErr (old new : List ℚ) : ℚ :=
  (List.zipWith (fun a b => |a - b|) old new).foldr max 0

/-- The `precision_MAE` attribute key (`pm_str`, `__init__.py:244`). -/
def pmStr : String := "precision_MAE"

/-- The Variable branch of `compress` (`__init__.py:245-275`): quantize
    when the dtype is a float and `quantize` is not `None` (the fresh
    result keeps only the `precision_MAE` attr and an empty encoding),
    then when `dlevel` is not `None` restore the saved encoding updated
    with `zlib/shuffle/complevel`. -/
def compressVar (quantize : Option ℤ) (dlevel : Option ℤ) (v : Var) : Var :=
  let dt := v.dtype
  let oldEnc := v.encoding
  let v1 :=
    match quantize with
    | some q =>
      if dt.isFloat then
        let r := reduceValues v.values q
        let mae := maxAbsErr v.values r
        { dtype := dt, values := r,
          attrs := setAttr [] pmStr (.rat mae),
          encoding := Encoding.empty }
      else v
    | none => v
  match dlevel with
  | some d => { v1 with encoding := oldEnc.deflateUpdate d }
  | none => v1

/-- `__init__.py:289-290`: fold a variable's `precision_MAE` attribute
    into the running global maximum. -/
def foldMae (acc : ℚ) (v : Var) : ℚ :=
  match (getAttr v.attrs pmStr).bind AttrVal.toRat? with
  | some m => max acc m
  | none => acc

/-- The Dataset branch of `compress` (`__init__.py:284-296`): deep copy,
    compress every data variable, aggregate the global MAE, and when
    `quantize` is not `None` stamp `decimal_precision` and
    `precision_MAE` on the dataset attrs. -/
def compressDataset (quantize : Option ℤ) (dlevel : Option ℤ)
    (ds : Dataset) : Dataset :=
  let vars' := ds.vars.map (fun p => (p.1, compressVar quantize dlevel p.2))
  let globMae := vars'.foldl (fun acc p => foldMae acc p.2) 0
  match quantize with
  | some q =>
    { vars := vars',
      attrs := setAttr (setAttr ds.attrs "decimal_precision" (.int q))
                 pmStr (.rat globMae) }
  | none => { vars := vars', attrs := ds.attrs }

/-- A Python value passed as the `quantize` argument. -/
inductive PyNum where
  | none
  | int (n : ℤ)
  | float (x : ℚ)
deriving DecidableEq, Repr

/-- `_check_int(x, name)` (`__init__.py:102-105`): `TypeError` when `x`
    is neither `None` nor an `int`; no sign check. -/
def checkInt (x : PyNum) (name : String) : Except String Unit :=
  match x with
  | .none => pure ()
  | .int _ => pure ()
  | .float _ => throw ("TypeError: " ++ name ++ " must be integer")

/-- `_check_dlevel(x)` (`__init__.py:108-112`): integer check then the
    range check `0 <= x <= 9`. -/
def checkDlevel (x : PyNum) : Except String Unit := do
  checkInt x "dlevel"
  match x with
  | .int n =>
    if 0 ≤ n ∧ n ≤ 9 then pure ()
    else throw "ValueError: dlevel must be between (0,9)"
  | _ => pure ()

/-- `PyNum` to the `Option ℤ` the numeric core consumes (a `float` never
    reaches the core: `checkInt` throws first). -/
def PyNum.toOptInt : PyNum → Option ℤ
  | .int n => some n
  | _ => Option.none

/-- `compress(ds, quantize, dlevel)` on a Dataset, argument validation
    included (`__init__.py:241-243` then the Dataset branch). -/
def compressE (quantize : PyNum) (dlevel : PyNum) (ds : Dataset) :
    Except String Dataset := do
  checkInt quantize "quantize"
  checkDlevel dlevel
  pure (compressDataset quantize.toOptInt dlevel.toOptInt ds)

/-! ## Reference semantics for the Dataset branch (frame property)

To make "never mutates the caller's dataset" non-vacuous we give the
Dataset branch reference semantics: a heap is an arena of `Var` cells,
a dataset handle points at cells by index.  `ds.copy(deep=True)`
(`__init__.py:285`) allocates fresh cells; the loop `ds2[k] = compress(
ds2[k], ...)` writes through the fresh handles only. -/

/-- Arena of variable cells. -/
abbrev Heap := List Var

instance : Inhabited Var :=
  ⟨{ dtype := .float32, values := [], attrs := [], encoding := Encoding.empty }⟩

/-- A dataset handle: named references into the heap plus its own attrs. -/
structure DsRef where
  varIds : List (String × Nat)
  attrs : Attrs
deriving DecidableEq, Repr

/-- `ds.copy(deep=True)`: append a fresh copy of every referenced cell
    and return a handle to the fresh cells. -/
def deepCopy (h : Heap) (ds : DsRef) : Heap × DsRef :=
  let fresh := ds.varIds.enum.map (fun p => (p.2.1, h.length + p.1))
  let cells := ds.varIds.map (fun p => (h.getD p.2 default))
  (h ++ cells, { varIds := fresh, attrs := ds.attrs })

/-- The Dataset branch of `compress` with an explicit heap
    (`__init__.py:284-296`): deep-copy, then for each variable of the
    copy overwrite its cell with the compressed variable, aggregate the
    global MAE from the written cells, and stamp the copy's attrs. -/
def compressDatasetH (quantize : Option ℤ) (dlevel : Option ℤ)
    (h : Heap) (ds : DsRef) : Heap × DsRef :=
  let hds2 := deepCopy h ds
  let h2 := hds2.2.varIds.foldl
    (fun hh p => hh.set p.2 (compressVar quantize dlevel (hh.getD p.2 default)))
    hds2.1
  let globMae := hds2.2.varIds.foldl
    (fun acc p => foldMae acc (h2.getD p.2 default)) 0
  let ds2 := hds2.2
  match quantize with
  | some q =>
    (h2, { ds2 with
           attrs := setAttr (setAttr ds2.attrs "decimal_precision" (.int q))
                      pmStr (.rat globMae) })
  | none => (h2, ds2)

/-! ## Concrete example inputs (the spec's own scenarios) -/

/-- The spec scenario variable: float32 `TEMP = [1.2345, 2.3456]`. -/
def tempVarEx : Var :=
  { dtype := .float32, values := [12345/10000, 23456/10000], attrs := [],
    encoding := Encoding.empty }

/-- A one-variable dataset holding `tempVarEx`. -/
def dsTempEx : Dataset := { vars := [("TEMP", tempVarEx)], attrs := [] }

/-- An int32 `TFLAG` variable with default (empty) encoding. -/
def tflagVarEx : Var :=
  { dtype := .int32, values := [0], attrs := [], encoding := Encoding.empty }

/-- A one-variable dataset holding only `TFLAG`. -/
def dsTflagEx : Dataset := { vars := [("TFLAG", tflagVarEx)], attrs := [] }

/-- Expected result of one `compress(·, 2, 5)` pass over `tempVarEx`. -/
def varOnceEx : Var :=
  { dtype := .float32, values := [123/100, 47/20],
    attrs := [(pmStr, AttrVal.rat (9/2000))],
    encoding := ⟨true, true, some 5⟩ }

/-- Expected result of a second `compress(·, 2, 5)` pass: same values,
    but `precision_MAE` recomputed as 0. -/
def varTwiceEx : Var :=
  { dtype := .float32, values := [123/100, 47/20],
    attrs := [(pmStr, AttrVal.rat 0)],
    encoding := ⟨true, true, some 5⟩ }

/-- Expected dataset after one `compress(·, 2, 5)` pass on `dsTempEx`. -/
def dsOnceEx : Dataset :=
  { vars := [("TEMP", varOnceEx)],
    attrs := [("decimal_precision", AttrVal.int 2),
              (pmStr, AttrVal.rat (9/2000))] }

/-- Expected dataset after two `compress(·, 2, 5)` passes on `dsTempEx`. -/
def dsTwiceEx : Dataset :=
  { vars := [("TEMP", varTwiceEx)],
    attrs := [("decimal_precision", AttrVal.int 2),
              (pmStr, AttrVal.rat 0)] }

/-! ## Helper lemmas -/

theorem le_foldr_max (l : List ℚ) (x : ℚ) (hx : x ∈ l) :
    x ≤ l.foldr max 0 := by
  induction l with
  | nil => cases hx
  | cons a t ih =>
    rcases List.mem_cons.mp hx with h | h
    · subst h; exact le_max_left _ _
    · exact (ih h).trans (le_max_right _ _)

theorem foldr_max_mem (l : List ℚ) (hne : l ≠ []) (h0 : ∀ x ∈ l, 0 ≤ x) :
    l.foldr max 0 ∈ l := by
  induction l with
  | nil => exact absurd rfl hne
  | cons a t ih =>
    cases t with
    | nil =>
      have ha : (0 : ℚ) ≤ a := h0 a (List.mem_cons_self a [])
      simp [max_eq_left ha]
    | cons b u =>
      have hm : (b :: u).foldr max 0 ∈ b :: u :=
        ih (by simp) (fun x hx => h0 x (List.mem_cons_of_mem a hx))
      rcases max_choice a ((b :: u).foldr max 0) with h | h
      · rw [List.foldr_cons, h]; exact List.mem_cons_self _ _
      · rw [List.foldr_cons, h]; exact List.mem_cons_of_mem a hm

theorem zipWith_abs_nonneg (l1 l2 : List ℚ) :
    ∀ x ∈ List.zipWith (fun a b => |a - b|) l1 l2, 0 ≤ x := by
  induction l1 generalizing l2 with
  | nil => simp
  | cons a t ih =>
    cases l2 with
    | nil => simp
    | cons b u =>
      intro x hx
      rcases List.mem_cons.mp hx with h | h
      · subst h; exact abs_nonneg _
      · exact ih u x h

theorem mem_zipWith_self_map {β : Type} (f : ℚ → ℚ → β) (g : ℚ → ℚ)
    (l : List ℚ) : ∀ x ∈ List.zipWith f l (l.map g), ∃ a ∈ l, x = f a (g a) := by
  induction l with
  | nil => simp
  | cons a t ih =>
    intro x hx
    rcases List.mem_cons.mp hx with h | h
    · exact ⟨a, List.mem_cons_self a t, h⟩
    · obtain ⟨b, hb, hxb⟩ := ih x h
      exact ⟨b, List.mem_cons_of_mem a hb, hxb⟩

theorem zipWith_map_ne_nil {β : Type} (f : ℚ → ℚ → β) (g : ℚ → ℚ)
    (l : List ℚ) (h : l ≠ []) : List.zipWith f l (l.map g) ≠ [] := by
  cases l with
  | nil => exact absurd rfl h
  | cons a t => simp

theorem npRoundDec_idem (x : ℚ) (q : ℤ) :
    npRoundDec (npRoundDec x q) q = npRoundDec x q := by
  unfold npRoundDec
  have hE : (10 : ℚ) ^ q ≠ 0 := zpow_ne_zero q (by norm_num)
  rw [div_mul_cancel₀ _ hE, round_intCast]

theorem npRoundDec_abs_le (x : ℚ) (q : ℤ) :
    |x - npRoundDec x q| ≤ (1 / 2) * ((10 : ℚ) ^ q)⁻¹ := by
  unfold npRoundDec
  have hE : (0 : ℚ) < (10 : ℚ) ^ q := zpow_pos (by norm_num) q
  have h1 : (x * (10 : ℚ) ^ q - ((round (x * (10 : ℚ) ^ q) : ℤ) : ℚ))
        / (10 : ℚ) ^ q
      = x - ((round (x * (10 : ℚ) ^ q) : ℤ) : ℚ) / (10 : ℚ) ^ q := by
    rw [sub_div, mul_div_cancel_right₀ _ (ne_of_gt hE)]
  rw [← h1, abs_div, abs_of_pos hE, div_eq_mul_inv]
  exact mul_le_mul_of_nonneg_right (abs_sub_round _) (by positivity)

theorem reduceValues_idem (vals : List ℚ) (q : ℤ) :
    reduceValues (reduceValues vals q) q = reduceValues vals q := by
  unfold reduceValues
  rw [List.map_map]
  refine List.map_congr_left ?_
  intro x _
  simp only [Function.comp, mul_one, div_one]
  exact npRoundDec_idem x q

theorem default_ne_dashL (q : String) : "default=" ++ q ≠ "-L" := by
  intro h
  have hlen := congrArg String.length h
  rw [String.length_append] at hlen
  have h8 : ("default=" : String).length = 8 := rfl
  have h2 : ("-L" : String).length = 2 := rfl
  rw [h8, h2] at hlen
  omega

theorem compressDataset_vars (q d : Option ℤ) (ds : Dataset) :
    (compressDataset q d ds).vars
      = ds.vars.map (fun p => (p.1, compressVar q d p.2)) := by
  cases q <;> rfl

theorem compressVar_float_values (v : Var) (q : ℤ) (d : Option ℤ)
    (hf : v.dtype.isFloat = true) :
    (compressVar (some q) d v).values = reduceValues v.values q := by
  cases d <;> simp [compressVar, hf]

theorem compressVar_float_dtype (v : Var) (q : ℤ) (d : Option ℤ)
    (hf : v.dtype.isFloat = true) :
    (compressVar (some q) d v).dtype = v.dtype := by
  cases d <;> simp [compressVar, hf]

theorem compressVar_float_attrs (v : Var) (q : ℤ) (d : Option ℤ)
    (hf : v.dtype.isFloat = true) :
    (compressVar (some q) d v).attrs
      = [(pmStr, .rat (maxAbsErr v.values (reduceValues v.values q)))] := by
  cases d <;> simp [compressVar, hf, setAttr]

theorem compressVar_some_encoding (v : Var) (q : Option ℤ) (dl : ℤ) :
    (compressVar q (some dl) v).encoding = v.encoding.deflateUpdate dl := by
  cases q with
  | none => simp [compressVar]
  | some qq => by_cases hf : v.dtype.isFloat <;> simp [compressVar, hf]

theorem maxAbsErr_self (l : List ℚ) : maxAbsErr l l = 0 := by
  unfold maxAbsErr
  induction l with
  | nil => rfl
  | cons a t ih =>
    rw [List.zipWith_cons_cons, List.foldr_cons, ih, sub_self, abs_zero,
        max_self]

theorem reduceValues_tempEx :
    reduceValues [12345/10000, 23456/10000] 2 = [123/100, 47/20] := by
  unfold reduceValues npRoundDec
  norm_num [round_eq]

theorem maxAbsErr_tempEx :
    maxAbsErr [12345/10000, 23456/10000] [123/100, 47/20] = 9/2000 := by
  unfold maxAbsErr
  have h1 : |(12345/10000 : ℚ) - 123/100| = 9/2000 := by
    rw [abs_of_nonneg (by norm_num)]; norm_num
  have h2 : |(23456/10000 : ℚ) - 47/20| = 11/2500 := by
    rw [abs_of_nonpos (by norm_num)]; norm_num
  simp only [List.zipWith, List.foldr, h1, h2]
  norm_num

theorem compressVar_tempEx :
    compressVar (some 2) (some 5) tempVarEx = varOnceEx := by
  have hv := compressVar_float_values tempVarEx 2 (some 5) rfl
  have hd := compressVar_float_dtype tempVarEx 2 (some 5) rfl
  have ha := compressVar_float_attrs tempVarEx 2 (some 5) rfl
  have he := compressVar_some_encoding tempVarEx (some 2) 5
  have hvals : tempVarEx.values = [12345/10000, 23456/10000] := rfl
  rw [hvals, reduceValues_tempEx] at hv
  rw [hvals, reduceValues_tempEx, maxAbsErr_tempEx] at ha
  cases hcv : compressVar (some 2) (some 5) tempVarEx
  rw [hcv] at hv hd ha he
  simp only at hv hd ha he
  simp [varOnceEx, hv, hd, ha, he, Encoding.deflateUpdate, tempVarEx,
        Encoding.empty]

theorem reduceValues_onceEx :
    reduceValues [123/100, 47/20] 2 = [123/100, 47/20] := by
  conv_lhs => rw [← reduceValues_tempEx]
  rw [reduceValues_idem, reduceValues_tempEx]

theorem compressVar_onceEx :
    compressVar (some 2) (some 5) varOnceEx = varTwiceEx := by
  have hv := compressVar_float_values varOnceEx 2 (some 5) rfl
  have hd := compressVar_float_dtype varOnceEx 2 (some 5) rfl
  have ha := compressVar_float_attrs varOnceEx 2 (some 5) rfl
  have he := compressVar_some_encoding varOnceEx (some 2) 5
  have hvals : varOnceEx.values = [123/100, 47/20] := rfl
  rw [hvals, reduceValues_onceEx] at hv
  rw [hvals, reduceValues_onceEx, maxAbsErr_self] at ha
  cases hcv : compressVar (some 2) (some 5) varOnceEx
  rw [hcv] at hv hd ha he
  simp only at hv hd ha he
  simp [varTwiceEx, hv, hd, ha, he, Encoding.deflateUpdate, varOnceEx]

theorem compress_once_eval :
    compressDataset (some 2) (some 5) dsTempEx = dsOnceEx := by
  simp [compressDataset, dsTempEx, compressVar_tempEx, dsOnceEx, foldMae,
        getAttr, setAttr, pmStr, varOnceEx, AttrVal.toRat?]
  norm_num

theorem compress_twice_eval :
    compressDataset (some 2) (some 5) dsOnceEx = dsTwiceEx := by
  simp [compressDataset, dsOnceEx, compressVar_onceEx, dsTwiceEx, foldMae,
        getAttr, setAttr, pmStr, varTwiceEx, AttrVal.toRat?]

theorem compress_idem_core (q d : Option ℤ) (v : Var) :
    (compressVar q d (compressVar q d v)).dtype = (compressVar q d v).dtype
    ∧ (compressVar q d (compressVar q d v)).values = (compressVar q d v).values
    ∧ (compressVar q d (compressVar q d v)).encoding
        = (compressVar q d v).encoding := by
  cases q with
  | none => cases d <;> simp [compressVar, Encoding.deflateUpdate]
  | some qq =>
    by_cases hf : v.dtype.isFloat = true
    · cases d <;>
        simp [compressVar, hf, reduceValues_idem, Encoding.deflateUpdate]
    · have hf' : v.dtype.isFloat = false := by
        revert hf; cases v.dtype.isFloat <;> simp
      cases d <;> simp [compressVar, hf', Encoding.deflateUpdate]

/-! ## Claim theorems -/

/-- Claim C1, counterexample: `compress` has no exclusion set, so with
    `quantize=None, dlevel=5` the encoding of the `TFLAG` variable in the
    output differs from its encoding in the input dataset. -/
theorem tflag_modified_cex :
    (compressDataset none (some 5) dsTflagEx).vars.map
        (fun p => (p.1, p.2.encoding))
      ≠ dsTflagEx.vars.map (fun p => (p.1, p.2.encoding)) := by decide

/-- Claim C1, amended: `compress` processes every data variable, `TFLAG`
    included; a variable whose dtype is not floating-point keeps its
    values, attributes and dtype, its encoding is unchanged when
    `deflate_level` is none, and is rewritten to
    `zlib := true, shuffle := true, complevel := deflate_level` when
    `deflate_level` is set. -/
theorem compress_no_exclusion_amended :
    ∀ (q d : Option ℤ) (name : String) (v : Var) (ds : Dataset),
      (name, v) ∈ ds.vars → v.dtype.isFloat = false →
      ((name, compressVar q d v) ∈ (compressDataset q d ds).vars
       ∧ (compressVar q d v).values = v.values
       ∧ (compressVar q d v).attrs = v.attrs
       ∧ (compressVar q d v).dtype = v.dtype
       ∧ (d = none → (compressVar q d v).encoding = v.encoding)
       ∧ ∀ dl, d = some dl →
           (compressVar q d v).encoding = v.encoding.deflateUpdate dl) := by
  intro q d name v ds hmem hf
  refine ⟨?_, ?_, ?_, ?_, ?_, ?_⟩
  · rw [compressDataset_vars]
    exact List.mem_map_of_mem (fun p => (p.1, compressVar q d p.2)) hmem
  · cases q <;> cases d <;> simp [compressVar, hf]
  · cases q <;> cases d <;> simp [compressVar, hf]
  · cases q <;> cases d <;> simp [compressVar, hf]
  · intro hd; subst hd; cases q <;> simp [compressVar, hf]
  · intro dl hd; subst hd; exact compressVar_some_encoding v q dl

/-- Claim C1, witness for the amended theorem: the int32 `TFLAG` variable
    of `dsTflagEx`, compressed with `quantize=2, dlevel=5`. -/
theorem compress_no_exclusion_witness :
    (("TFLAG", compressVar (some 2) (some 5) tflagVarEx)
        ∈ (compressDataset (some 2) (some 5) dsTflagEx).vars
     ∧ (compressVar (some 2) (some 5) tflagVarEx).values = tflagVarEx.values
     ∧ (compressVar (some 2) (some 5) tflagVarEx).attrs = tflagVarEx.attrs
     ∧ (compressVar (some 2) (some 5) tflagVarEx).dtype = tflagVarEx.dtype
     ∧ ((some 5 : Option ℤ) = none →
         (compressVar (some 2) (some 5) tflagVarEx).encoding
           = tflagVarEx.encoding)
     ∧ ∀ dl, (some 5 : Option ℤ) = some dl →
         (compressVar (some 2) (some 5) tflagVarEx).encoding
           = tflagVarEx.encoding.deflateUpdate dl) :=
  compress_no_exclusion_amended (some 2) (some 5) "TFLAG" tflagVarEx dsTflagEx
    (by decide) (by decide)

/-- Claim C3, counterexample: applying `compress` twice with
    `quantize=2, dlevel=5` to the dataset holding float32
    `TEMP = [1.2345, 2.3456]` does not equal applying it once — the
    second pass overwrites `precision_MAE` (0.0045 after one pass) with
    0, at the variable and at the dataset level. -/
theorem compress_not_idempotent_cex :
    compressDataset (some 2) (some 5)
        (compressDataset (some 2) (some 5) dsTempEx)
      ≠ compressDataset (some 2) (some 5) dsTempEx := by
  rw [compress_once_eval, compress_twice_eval]
  intro h
  have h2 := congrArg (fun ds => getAttr ds.attrs pmStr) h
  simp [dsOnceEx, dsTwiceEx, getAttr, pmStr] at h2
  norm_num at h2

/-- Claim C3, amended: `compress ∘ compress` (same `q`, `d`) agrees with a
    single `compress` on every variable's name, dtype, values and
    encoding; only the recomputed `precision_MAE` attributes (variable-
    and dataset-level) can differ, so full dataset equality fails
    whenever the first pass reports a nonzero error. -/
theorem compress_idem_values_encodings :
    ∀ (q d : Option ℤ) (ds : Dataset),
      (compressDataset q d (compressDataset q d ds)).vars.map
          (fun p => (p.1, p.2.dtype, p.2.values, p.2.encoding))
        = (compressDataset q d ds).vars.map
          (fun p => (p.1, p.2.dtype, p.2.values, p.2.encoding)) := by
  intro q d ds
  rw [compressDataset_vars, compressDataset_vars]
  simp only [List.map_map]
  refine List.map_congr_left ?_
  intro p _
  obtain ⟨h1, h2, h3⟩ := compress_idem_core q d p.2
  simp [Function.comp, h1, h2, h3]

/-- Claim C4: the idempotence guard `_update_is_required_compress`
    reports reprocessing required iff some variable's stored complevel
    differs from the requested `dlevel`, or the requested `quantize`
    survives the collapse against the stored `precision` attribute; in
    particular, with stored precision 3 and matching complevels,
    `quantize=4` reports no reprocessing and `quantize=2` reports
    reprocessing. -/
theorem guard_reprocessing_iff :
    (∀ (ds : PersistedMeta) (quantize : Option ℤ) (dlevel : ℤ),
      updateIsRequiredCompress ds quantize dlevel = true ↔
        ((∃ c ∈ ds.complevels, c ≠ dlevel) ∨
         (∃ q, quantize = some q ∧
            ∀ p, ds.precision = some (some p) → q < p)))
    ∧ updateIsRequiredCompress ⟨[5], some (some 3)⟩ (some 4) 5 = false
    ∧ updateIsRequiredCompress ⟨[5], some (some 3)⟩ (some 2) 5 = true := by
  refine ⟨?_, by decide, by decide⟩
  intro ds quantize dlevel
  obtain ⟨cls, prec⟩ := ds
  rcases prec with _ | prec2
  · rcases quantize with _ | q <;>
      simp [updateIsRequiredCompress, List.any_eq_true, bne_iff_ne]
  · rcases prec2 with _ | p
    · rcases quantize with _ | q <;>
        simp [updateIsRequiredCompress, List.any_eq_true, bne_iff_ne]
    · rcases quantize with _ | q
      · simp [updateIsRequiredCompress, List.any_eq_true, bne_iff_ne]
      · by_cases hqp : p ≤ q
        · simp [updateIsRequiredCompress, List.any_eq_true, bne_iff_ne, hqp]
        · simp [updateIsRequiredCompress, List.any_eq_true, bne_iff_ne, hqp]
          omega

/-- Claim C2: for a floating-point variable, `compress` produces reduced
    values `round(v * 10^q) / 10^q` kept in the variable's original dtype
    (float32 stays float32), and stamps `precision_MAE` with exactly the
    maximum elementwise absolute error: an upper bound on every
    elementwise error, attained at some element when the values are
    nonempty. -/
theorem compress_quantizer_spec :
    ∀ (v : Var) (q : ℤ) (d : Option ℤ),
      v.dtype.isFloat = true →
      ((compressVar (some q) d v).dtype = v.dtype
       ∧ (compressVar (some q) d v).values
           = v.values.map
               (fun x => ((round (x * (10 : ℚ) ^ q) : ℤ) : ℚ) / (10 : ℚ) ^ q)
       ∧ ∃ m : ℚ,
           getAttr (compressVar (some q) d v).attrs pmStr
             = some (.rat m)
           ∧ (∀ e ∈ List.zipWith (fun a b => |a - b|) v.values
                 (compressVar (some q) d v).values, e ≤ m)
           ∧ (v.values ≠ [] →
               m ∈ List.zipWith (fun a b => |a - b|) v.values
                 (compressVar (some q) d v).values)) := by
  intro v q d hf
  have hvals := compressVar_float_values v q d hf
  have hred : reduceValues v.values q
      = v.values.map
          (fun x => ((round (x * (10 : ℚ) ^ q) : ℤ) : ℚ) / (10 : ℚ) ^ q) := by
    simp [reduceValues, npRoundDec]
  refine ⟨compressVar_float_dtype v q d hf, by rw [hvals, hred], ?_⟩
  refine ⟨maxAbsErr v.values (reduceValues v.values q), ?_, ?_, ?_⟩
  · rw [compressVar_float_attrs v q d hf]
    simp [getAttr]
  · intro e he
    rw [hvals] at he
    exact le_foldr_max _ e he
  · intro hne
    rw [hvals]
    exact foldr_max_mem _
      (by
        rw [hred]
        exact zipWith_map_ne_nil _ _ v.values hne)
      (zipWith_abs_nonneg _ _)

/-- Claim C2, witness: the float32 spec scenario `TEMP = [1.2345,
    2.3456]` with `quantize = 2`. -/
theorem compress_quantizer_spec_witness :
    ((compressVar (some 2) (some 5) tempVarEx).dtype = tempVarEx.dtype
     ∧ (compressVar (some 2) (some 5) tempVarEx).values
         = tempVarEx.values.map
             (fun x => ((round (x * (10 : ℚ) ^ (2 : ℤ)) : ℤ) : ℚ)
               / (10 : ℚ) ^ (2 : ℤ))
     ∧ ∃ m : ℚ,
         getAttr (compressVar (some 2) (some 5) tempVarEx).attrs pmStr
           = some (.rat m)
         ∧ (∀ e ∈ List.zipWith (fun a b => |a - b|) tempVarEx.values
               (compressVar (some 2) (some 5) tempVarEx).values, e ≤ m)
         ∧ (tempVarEx.values ≠ [] →
             m ∈ List.zipWith (fun a b => |a - b|) tempVarEx.values
               (compressVar (some 2) (some 5) tempVarEx).values)) :=
  compress_quantizer_spec tempVarEx 2 (some 5) rfl

/-- Claim C5: every element of a quantized floating-point variable is
    within `0.5 * 10^(-q)` of the original value. -/
theorem quantize_error_bound :
    ∀ (v : Var) (q : ℤ) (d : Option ℤ),
      v.dtype.isFloat = true → 0 ≤ q →
      ∀ e ∈ List.zipWith (fun a b => |a - b|) v.values
          (compressVar (some q) d v).values,
        e ≤ (1 / 2) * (10 : ℚ) ^ (-q) := by
  intro v q d hf _ e he
  rw [compressVar_float_values v q d hf] at he
  unfold reduceValues at he
  obtain ⟨a, _, rfl⟩ := mem_zipWith_self_map _ _ v.values e he
  rw [zpow_neg]
  calc |a - npRoundDec (a * 1) q / 1|
      = |a - npRoundDec a q| := by rw [mul_one, div_one]
    _ ≤ (1 / 2) * ((10 : ℚ) ^ q)⁻¹ := npRoundDec_abs_le a q

/-- Claim C5, witness: the first element of the spec scenario variable,
    `|1.2345 - 1.23| ≤ 0.5 * 10^(-2)`. -/
theorem quantize_error_bound_witness :
    |(12345 / 10000 : ℚ) - 123 / 100| ≤ (1 / 2) * (10 : ℚ) ^ (-(2 : ℤ)) := by
  have h := quantize_error_bound tempVarEx 2 (some 5) rfl (by norm_num)
    |(12345 / 10000 : ℚ) - 123 / 100|
  apply h
  rw [compressVar_float_values tempVarEx 2 (some 5) rfl]
  have hv : tempVarEx.values = [12345/10000, 23456/10000] := rfl
  rw [hv, reduceValues_tempEx]
  simp

/-- Claim C6, counterexample: `compress` with the negative integer
    `quantize = -1` raises nothing and returns a result (only the
    integer-type check exists; there is no sign check). -/
theorem negative_quantize_accepted_cex :
    compressE (.int (-1)) (.int 5) dsTempEx
      = .ok (compressDataset (some (-1)) (some 5) dsTempEx) := rfl

/-- Claim C6, amended: with a valid `dlevel`, `compress` fails iff
    `quantize` is a non-integer (Python `TypeError` from `_check_int`);
    any integer `quantize`, negative included, is accepted. -/
theorem compress_check_int_amended :
    ∀ (quantize : PyNum) (d : PyNum) (ds : Dataset),
      checkDlevel d = Except.ok () →
      ((∃ e, compressE quantize d ds = .error e)
        ↔ ∃ x, quantize = .float x) := by
  intro quantize d ds hd
  cases quantize with
  | none =>
    simp [compressE, checkInt, hd, Bind.bind, Except.bind, pure, Except.pure]
  | int n =>
    simp [compressE, checkInt, hd, Bind.bind, Except.bind, pure, Except.pure]
  | float x =>
    constructor
    · intro _
      exact ⟨x, rfl⟩
    · intro _
      exact ⟨"TypeError: quantize must be integer", rfl⟩

/-- Claim C6, witness for the amended theorem: `quantize = 0.5` on the
    spec scenario dataset with `dlevel = 5`. -/
theorem compress_check_int_witness :
    (∃ e, compressE (.float (1/2)) (.int 5) dsTempEx = .error e)
      ↔ ∃ x, (PyNum.float (1/2)) = .float x :=
  compress_check_int_amended (.float (1/2)) (.int 5) dsTempEx rfl

/-- Claim C7, counterexample: the fractional significant-digit spec
    `.0` is NOT rejected by `ncks` — validation passes and the command
    for the subprocess is built (`float('.0')` is not an `int` instance,
    so the zero check never fires on the `.N` branch). -/
theorem fractional_zero_accepted_cex :
    ncksRun (some ".0") (some 5) "in.nc" "out.nc"
      = .ok ["ncks", "-O", "-7", "--no_abc", "-L", "5", "--baa=8",
             "--ppc", "default=.0", "in.nc", "out.nc"] := rfl

/-- Claim C7, amended: only the integer form of `quantize` evaluating to
    0 (e.g. `"0"`) raises the NSD-zero `ValueError`; every parseable
    fractional `.N` spec — `.0` included — passes validation and the
    subprocess command is built. -/
theorem ncks_zero_check_amended :
    (∀ (d : Option ℤ) (src dst : String),
      ncksRun (some "0") d src dst
        = .error "ValueError: NSD quantize cannot be 0.")
    ∧ (∀ (s : String) (d : Option ℤ) (src dst : String),
        pyStartsWithDot s = true → (pyFloatDot? s).isSome = true →
        ncksRun (some s) d src dst = .ok (buildCmd (some s) d src dst)) := by
  constructor
  · intro d src dst
    rfl
  · intro s d src dst h1 h2
    obtain ⟨x, hx⟩ := Option.isSome_iff_exists.mp h2
    simp [ncksRun, ncksCheckArgs, ncksBothNoneCheck, ncksCheckQuantize,
          h1, hx, Bind.bind, Except.bind, pure, Except.pure]

/-- Claim C7, witness for the amended theorem: `quantize = ".3"` with no
    deflate level. -/
theorem ncks_zero_check_witness :
    ncksRun (some ".3") none "in.nc" "out.nc"
      = .ok (buildCmd (some ".3") none "in.nc" "out.nc") :=
  ncks_zero_check_amended.2 ".3" none "in.nc" "out.nc" rfl rfl

/-- Claim C8: the subprocess argument list contains `-L <level> --baa=8`
    exactly when `dlevel` is set and `--ppc default=<quantize>` exactly
    when `quantize` is set; in particular `quantize=".3",
    deflate_level=None` yields `--ppc default=.3` with no `-L` flag. -/
theorem ncks_cmd_flags :
    (∀ (q : String) (d : ℤ) (src dst : String),
      buildCmd (some q) (some d) src dst
        = ["ncks", "-O", "-7", "--no_abc", "-L", toString d, "--baa=8",
           "--ppc", "default=" ++ q, src, dst])
    ∧ (∀ (d : ℤ) (src dst : String),
      buildCmd none (some d) src dst
        = ["ncks", "-O", "-7", "--no_abc", "-L", toString d, "--baa=8",
           src, dst])
    ∧ (∀ (q : String) (src dst : String),
      buildCmd (some q) none src dst
        = ["ncks", "-O", "-7", "--no_abc", "--ppc", "default=" ++ q,
           src, dst])
    ∧ (∀ src dst : String,
      buildCmd none none src dst
        = ["ncks", "-O", "-7", "--no_abc", src, dst])
    ∧ (∀ (q : String) (src dst : String), src ≠ "-L" → dst ≠ "-L" →
      "-L" ∉ buildCmd (some q) none src dst)
    ∧ ncksRun (some ".3") none "in.nc" "out.nc"
        = .ok ["ncks", "-O", "-7", "--no_abc", "--ppc", "default=.3",
               "in.nc", "out.nc"] := by
  refine ⟨fun q d src dst => rfl, fun d src dst => rfl, fun q src dst => rfl,
          fun src dst => rfl, ?_, rfl⟩
  intro q src dst hsrc hdst hmem
  simp [buildCmd] at hmem
  rcases hmem with h | h | h
  · exact default_ne_dashL q h.symm
  · exact hsrc h.symm
  · exact hdst h.symm

/-- Claim C8, witness: with `quantize=".3"` and no deflate level, no
    `-L` flag is in the command. -/
theorem ncks_cmd_flags_witness :
    "-L" ∉ buildCmd (some ".3") none "a.nc" "b.nc" :=
  ncks_cmd_flags.2.2.2.2.1 ".3" "a.nc" "b.nc" (by decide) (by decide)

theorem foldl_set_preserve (g : Heap → String × Nat → Var) :
    ∀ (l : List (String × Nat)) (hh : Heap) (i : ℕ),
      (∀ p ∈ l, i ≠ p.2) →
      (l.foldl (fun acc p => acc.set p.2 (g acc p)) hh)[i]? = hh[i]? := by
  intro l
  induction l with
  | nil => intro hh i _; rfl
  | cons a t ih =>
    intro hh i hne
    rw [List.foldl_cons,
        ih _ i (fun p hp => hne p (List.mem_cons_of_mem a hp)),
        List.getElem?_set_ne (Ne.symm (hne a (List.mem_cons_self a t)))]

/-- Claim C9: the Dataset branch of `compress`, under reference
    semantics, never writes to any pre-existing heap cell — in
    particular every variable of the caller's dataset is unchanged — and
    the returned handle points only at the fresh deep-copied cells. -/
theorem compress_no_mutation :
    ∀ (q d : Option ℤ) (h : Heap) (ds : DsRef) (i : ℕ),
      i < h.length →
      (((compressDatasetH q d h ds).1)[i]? = h[i]?
       ∧ ∀ p ∈ ((compressDatasetH q d h ds).2).varIds, h.length ≤ p.2) := by
  intro q d h ds i hi
  have hfresh : ∀ p ∈ ds.varIds.enum.map (fun p => (p.2.1, h.length + p.1)),
      h.length ≤ p.2 := by
    intro p hp
    obtain ⟨pr, _, rfl⟩ := List.mem_map.mp hp
    exact Nat.le_add_right _ _
  constructor
  · have hfst : (compressDatasetH q d h ds).1
        = (ds.varIds.enum.map (fun p => (p.2.1, h.length + p.1))).foldl
            (fun acc p => acc.set p.2
              (compressVar q d (acc.getD p.2 default)))
            (h ++ ds.varIds.map (fun p => h.getD p.2 default)) := by
      cases q <;> rfl
    rw [hfst,
        foldl_set_preserve (fun acc p => compressVar q d (acc.getD p.2 default))
          _ _ i
          (fun p hp => Nat.ne_of_lt (Nat.lt_of_lt_of_le hi (hfresh p hp))),
        List.getElem?_append, if_pos hi]
  · have hvarIds : ((compressDatasetH q d h ds).2).varIds
        = ds.varIds.enum.map (fun p => (p.2.1, h.length + p.1)) := by
      cases q <;> rfl
    rw [hvarIds]
    exact hfresh

/-- Claim C9, witness: a one-cell heap holding `tflagVarEx` and a
    dataset referencing cell 0, compressed with `quantize=2, dlevel=5`. -/
theorem compress_no_mutation_witness :
    (((compressDatasetH (some 2) (some 5) [tflagVarEx]
          { varIds := [("TFLAG", 0)], attrs := [] }).1)[0]?
        = ([tflagVarEx] : Heap)[0]?
     ∧ ∀ p ∈ ((compressDatasetH (some 2) (some 5) [tflagVarEx]
          { varIds := [("TFLAG", 0)], attrs := [] }).2).varIds,
        ([tflagVarEx] : Heap).length ≤ p.2) :=
  compress_no_mutation (some 2) (some 5) [tflagVarEx]
    { varIds := [("TFLAG", 0)], attrs := [] } 0 (by simp)

/-- Claim C10: `ncks` raises `ValueError` when both `quantize` and
    `dlevel` are `None` — before building any command or touching any
    file — and the both-none check passes whenever at least one of them
    is set. -/
theorem ncks_both_none_check :
    (∀ src dst : String,
      ncksRun none none src dst
        = .error "ValueError: One of quantize or dlevel must be set.")
    ∧ (∀ (q : Option String) (d : Option ℤ),
        q ≠ none ∨ d ≠ none → ncksBothNoneCheck q d = .ok ()) := by
  constructor
  · intro src dst
    rfl
  · intro q d hqd
    unfold ncksBothNoneCheck
    rw [if_neg (by tauto)]
    rfl

/-- Claim C10, witness: `quantize = "2"` alone passes the both-none
    check. -/
theorem ncks_both_none_check_witness :
    ncksBothNoneCheck (some "2") none = .ok () :=
  ncks_both_none_check.2 (some "2") none (Or.inl (by simp))

end Nchandy
